import Mathlib

/-!
Verification of the `findDistribution` scoped list query builder
(`distribution statement` search) against its specification.

The embedding models the TypeScript function `findDistribution` together
with the slice of the Prisma data model it queries: users, teams (with an
optional shared inbox email), and distribution-statement records with
their platform/territory association rows.  Database state is an explicit
`Db` value; `DateTime.now()` becomes an explicit `now : Nat` parameter
(seconds since epoch, days of 86400 seconds, `startOf day` as truncation
to a day multiple); the thrown `findFirstOrThrow` error becomes `Except`.
-/

namespace DistributionQuery

/-- A row of the `User` table, restricted to the columns the query reads:
the record-owner relation used by the shared-inbox-email branch. -/
structure User where
  id : Nat
  email : String
deriving DecidableEq, Repr

/-- A row of the `Team` table with its eagerly loaded `teamEmail` relation
(modelled as the email string when configured) and the member user ids. -/
structure Team where
  id : Nat
  members : List Nat
  teamEmail : Option String
deriving DecidableEq, Repr

/-- A `DistributionStatement` row.  The seven searched text columns are
kept verbatim; `platformAssocs` / `territoryAssocs` hold the foreign keys
of the `distributionStatementMusicPlatforms` /
`distributionStatementTerritories` association rows of this record. -/
structure DistributionStatement where
  id : Nat
  userId : Nat
  teamId : Option Nat
  proyecto : String
  isrc : String
  marketingOwner : String
  nombreDistribucion : String
  numeroDeCatalogo : String
  tituloCatalogo : String
  tipoDeIngreso : String
  createdAt : Nat
  platformAssocs : List Nat
  territoryAssocs : List Nat
deriving DecidableEq, Repr

/-- The database state visible to one call. -/
structure Db where
  users : List User
  teams : List Team
  statements : List DistributionStatement
deriving DecidableEq, Repr

/-- Direction of `orderBy`. -/
inductive OrderDirection where
  | asc
  | desc
deriving DecidableEq, Repr

/-- The orderable columns (`keyof` of the record type minus its bulk `release` field, applied to the
statement rows): the scalar columns of the modelled record. -/
inductive OrderColumn where
  | id
  | userId
  | createdAt
  | proyecto
  | isrc
  | marketingOwner
  | nombreDistribucion
  | numeroDeCatalogo
  | tituloCatalogo
  | tipoDeIngreso
deriving DecidableEq, Repr

/-- The `orderBy` option: a column and a direction. -/
structure OrderBySpec where
  column : OrderColumn
  direction : OrderDirection
deriving DecidableEq, Repr

/-- The options record of `findDistribution`.  Field defaults mirror the
JavaScript parameter defaults (`page = 1`, `perPage = 10`), which apply
exactly when the caller omits the field; `whereExtra` is the caller's
extra `where` filter, an opaque predicate ANDed into the composed filter
(absent = accept everything, as spreading `undefined` yields `{}`).
`period` is kept as a runtime string: the TypeScript enum
`PeriodSelectorValue` exists only at the type level. -/
structure FindOptions where
  userId : Nat
  teamId : Option Nat := none
  page : Nat := 1
  perPage : Nat := 10
  orderBy : Option OrderBySpec := none
  whereExtra : DistributionStatement → Bool := fun _ => true
  period : Option String := none
  query : Option String := none
  platformIds : Option (List Nat) := none
  territoryIds : Option (List Nat) := none

/-- The result page (`FindResultResponse`).  `totalPages` is `Option Nat`:
`none` models the non-finite JavaScript number `Math.ceil` returns when
`count / perPage` divides by zero (Infinity or NaN). -/
structure ResultPage where
  data : List DistributionStatement
  count : Nat
  currentPage : Nat
  perPage : Nat
  totalPages : Option Nat
deriving DecidableEq, Repr

/-- Errors a call can surface: the `findFirstOrThrow` team lookup failure,
and the storage-level rejection of the invalid date bound produced when
`parseInt` yields NaN (luxon then yields an invalid DateTime whose
`toISO()` is null). -/
inductive FindError where
  | teamNotFound
  | invalidDateFilter
deriving DecidableEq, Repr

/-- Model of `Math.ceil(count / perPage)` on JavaScript numbers: exact ceiling
division for a positive divisor, `none` (a non-finite number) for
division by zero. -/
def jsCeilDiv (count perPage : Nat) : Option Nat :=
  if perPage = 0 then none else some ((count + perPage - 1) / perPage)

/-- ASCII lowering of one character, the case folding used to model the
insensitive mode comparison of the storage collaborator. -/
def lowerChar (c : Char) : Char :=
  if 65 ≤ c.toNat ∧ c.toNat ≤ 90 then Char.ofNat (c.toNat + 32) else c

/-- Lowercase a character list. -/
def lowerChars (l : List Char) : List Char :=
  l.map lowerChar

/-- Does the second list begin with the first (the needle)? -/
def charsBeginWith : List Char → List Char → Bool
  | [], _ => true
  | _ :: _, [] => false
  | a :: as, b :: bs => a == b && charsBeginWith as bs

/-- Does the second list contain the first as a contiguous sublist? -/
def charsContain (needle : List Char) : List Char → Bool
  | [] => charsBeginWith needle []
  | c :: rest => charsBeginWith needle (c :: rest) || charsContain needle rest

/-- Prisma case-insensitive contains of `needle` applied to `hay`. -/
def strContainsCI (hay needle : String) : Bool :=
  charsContain (lowerChars needle.toList) (lowerChars hay.toList)

/-- The `searchFilter` OR-block, in source order (note the source lists
`proyecto` twice).  An absent `query` leaves each branch unconstrained,
so the block matches every record. -/
def searchMatch (query : Option String) (r : DistributionStatement) : Bool :=
  match query with
  | none => true
  | some q =>
    strContainsCI r.proyecto q || strContainsCI r.isrc q ||
    strContainsCI r.marketingOwner q || strContainsCI r.nombreDistribucion q ||
    strContainsCI r.numeroDeCatalogo q || strContainsCI r.tituloCatalogo q ||
    strContainsCI r.proyecto q || strContainsCI r.tipoDeIngreso q

/-- The email of the user a record belongs to, via the `user` relation. -/
def userEmailOf (db : Db) (uid : Nat) : Option String :=
  (db.users.find? (fun u => decide (u.id = uid))).map (fun u => u.email)

/-- The tenant `Filter` block: personal scope (`userId` equal and `teamId`
null) when no team was resolved; otherwise team scope, widened to records
whose owning user's email equals the team's shared inbox email when the
team has one. -/
def tenantFilter (db : Db) (userId : Nat) (teamOpt : Option Team)
    (r : DistributionStatement) : Bool :=
  match teamOpt with
  | none => decide (r.userId = userId) && decide (r.teamId = none)
  | some t =>
    match t.teamEmail with
    | some e =>
      decide (r.teamId = some t.id) || decide (userEmailOf db r.userId = some e)
    | none => decide (r.teamId = some t.id)

/-- The facet association constraint: when a non-empty id list is given,
require at least one association row whose foreign key is in the list;
an absent or empty list imposes nothing (the source guards with
`platformIds && platformIds.length > 0`). -/
def assocConstraint (ids : Option (List Nat)) (assocs : List Nat) : Bool :=
  match ids with
  | none => true
  | some l => if 0 < l.length then assocs.any (fun a => l.contains a) else true

/-- Model of `prisma.team.findFirstOrThrow({ where: { id: teamId, members: { some:
{ userId } } } })`, minus the throwing: the first team with the given id
having the caller as a member. -/
def findTeam (db : Db) (teamId userId : Nat) : Option Team :=
  db.teams.find? (fun t => decide (t.id = teamId) && t.members.contains userId)

/-- Team resolution step of `findDistribution`: skipped entirely when
`teamId` is undefined, otherwise a failed lookup throws. -/
def resolveTeam (db : Db) (userId : Nat) (teamId : Option Nat) :
    Except FindError (Option Team) :=
  match teamId with
  | none => .ok none
  | some tid =>
    match findTeam db tid userId with
    | none => .error .teamNotFound
    | some t => .ok (some t)

/-- Model of `parseInt(s, 10)` restricted to the shapes this call site produces:
the value of a maximal run of leading ASCII digits, `none` for NaN. -/
def jsParseInt (s : String) : Option Nat :=
  match s.toList.takeWhile Char.isDigit with
  | [] => none
  | ds => some (ds.foldl (fun a c => a * 10 + (c.toNat - 48)) 0)

/-- Model of the regex replace stripping one trailing `d` from the period. -/
def stripTrailingD (s : String) : String :=
  if s.toList.getLast? = some 'd' then String.mk s.toList.dropLast else s

/-- Truncate a timestamp to the start of its day (luxon `startOf` of the day). -/
def startOfDay (t : Nat) : Nat :=
  t / 86400 * 86400

/-- The `createdAt` lower bound derived from `period`: no bound when the
option is absent or the string is falsy (empty); otherwise
the current time minus the day count, truncated to start of day, parsed by
`parseInt` after stripping a trailing `d`.  A NaN day count produces an
invalid date bound the storage layer rejects. -/
def periodBound (now : Nat) (period : Option String) :
    Except FindError (Option Nat) :=
  match period with
  | none => .ok none
  | some s =>
    if s = "" then .ok none
    else
      match jsParseInt (stripTrailingD s) with
      | none => .error .invalidDateFilter
      | some d => .ok (some (startOfDay (now - d * 86400)))

/-- The fully composed `whereClause` as a predicate on one record: the
AND of the search OR-block, the tenant filter, the caller's extra filter,
both facet constraints, and the period lower bound. -/
def composedPredicate (db : Db) (o : FindOptions) (teamOpt : Option Team)
    (pb : Option Nat) (r : DistributionStatement) : Bool :=
  searchMatch o.query r && tenantFilter db o.userId teamOpt r &&
    o.whereExtra r && assocConstraint o.platformIds r.platformAssocs &&
    assocConstraint o.territoryIds r.territoryAssocs &&
    (match pb with
     | some b => decide (b ≤ r.createdAt)
     | none => true)

/-- Stable insertion used by `sortBy`. -/
def insertBy (le : α → α → Bool) (a : α) : List α → List α
  | [] => [a]
  | b :: bs => if le a b then a :: b :: bs else b :: insertBy le a bs

/-- Stable sort modelling the storage collaborator's `orderBy`. -/
def sortBy (le : α → α → Bool) : List α → List α
  | [] => []
  | a :: as => insertBy le a (sortBy le as)

/-- Ascending comparison for one orderable column. -/
def colLe (c : OrderColumn) (a b : DistributionStatement) : Bool :=
  match c with
  | .id => decide (a.id ≤ b.id)
  | .userId => decide (a.userId ≤ b.userId)
  | .createdAt => decide (a.createdAt ≤ b.createdAt)
  | .proyecto => decide (a.proyecto ≤ b.proyecto)
  | .isrc => decide (a.isrc ≤ b.isrc)
  | .marketingOwner => decide (a.marketingOwner ≤ b.marketingOwner)
  | .nombreDistribucion => decide (a.nombreDistribucion ≤ b.nombreDistribucion)
  | .numeroDeCatalogo => decide (a.numeroDeCatalogo ≤ b.numeroDeCatalogo)
  | .tituloCatalogo => decide (a.tituloCatalogo ≤ b.tituloCatalogo)
  | .tipoDeIngreso => decide (a.tipoDeIngreso ≤ b.tipoDeIngreso)

/-- The effective ordering: requested column and direction, defaulting to
`id` ascending (nullish-coalesced to column `id` and direction `asc`). -/
def orderLe (spec : OrderBySpec) (a b : DistributionStatement) : Bool :=
  match spec.direction with
  | .asc => colLe spec.column a b
  | .desc => colLe spec.column b a

/-- The successful tail of the call: filter by the composed predicate,
order, paginate (`skip = max(page-1,0) * perPage`, `take = perPage`), and
run the count of the same predicate; assemble the result page with
`currentPage = max(page,1)` and `totalPages = Math.ceil(count/perPage)`. -/
def buildPage (db : Db) (o : FindOptions) (teamOpt : Option Team)
    (pb : Option Nat) : ResultPage :=
  let matching := db.statements.filter (composedPredicate db o teamOpt pb)
  let spec := o.orderBy.getD { column := .id, direction := .asc }
  let sorted := sortBy (orderLe spec) matching
  { data := (sorted.drop ((o.page - 1) * o.perPage)).take o.perPage
    count := matching.length
    currentPage := max o.page 1
    perPage := o.perPage
    totalPages := jsCeilDiv matching.length o.perPage }

/-- The operation `findDistribution`: resolve the team scope (throwing on a failed
lookup), derive the period bound, then run the paginated fetch and the
count against the identical composed predicate. -/
def findDistribution (db : Db) (now : Nat) (o : FindOptions) :
    Except FindError ResultPage :=
  match resolveTeam db o.userId o.teamId with
  | .error e => .error e
  | .ok teamOpt =>
    match periodBound now o.period with
    | .error e => .error e
    | .ok pb => .ok (buildPage db o teamOpt pb)

/-! ### General lemmas about the embedded operations -/

theorem mem_insertBy (le : α → α → Bool) (a b : α) (l : List α) :
    b ∈ insertBy le a l ↔ b = a ∨ b ∈ l := by
  induction l with
  | nil => simp [insertBy]
  | cons c cs ih =>
    simp only [insertBy]
    split
    · simp [List.mem_cons]
    · simp only [List.mem_cons, ih]
      tauto

theorem mem_sortBy (le : α → α → Bool) (a : α) (l : List α) :
    a ∈ sortBy le l ↔ a ∈ l := by
  induction l with
  | nil => simp [sortBy]
  | cons c cs ih => simp [sortBy, mem_insertBy, ih]

theorem findDistribution_ok_elim {db : Db} {now : Nat} {o : FindOptions}
    {res : ResultPage} (h : findDistribution db now o = .ok res) :
    ∃ teamOpt pb, resolveTeam db o.userId o.teamId = .ok teamOpt ∧
      periodBound now o.period = .ok pb ∧ res = buildPage db o teamOpt pb := by
  unfold findDistribution at h
  cases hrt : resolveTeam db o.userId o.teamId with
  | error e => rw [hrt] at h; exact absurd h (by simp)
  | ok teamOpt =>
    rw [hrt] at h
    cases hpb : periodBound now o.period with
    | error e => rw [hpb] at h; simp at h
    | ok pb =>
      rw [hpb] at h
      simp only [Except.ok.injEq] at h
      exact ⟨teamOpt, pb, rfl, rfl, h.symm⟩

theorem pred_of_mem_data {db : Db} {o : FindOptions} {teamOpt : Option Team}
    {pb : Option Nat} {r : DistributionStatement}
    (hr : r ∈ (buildPage db o teamOpt pb).data) :
    composedPredicate db o teamOpt pb r = true := by
  simp only [buildPage] at hr
  have h1 := List.take_subset _ _ hr
  have h2 := List.drop_subset _ _ h1
  rw [mem_sortBy] at h2
  exact (List.mem_filter.mp h2).2

theorem composedPredicate_parts {db : Db} {o : FindOptions}
    {teamOpt : Option Team} {pb : Option Nat} {r : DistributionStatement}
    (h : composedPredicate db o teamOpt pb r = true) :
    searchMatch o.query r = true ∧ tenantFilter db o.userId teamOpt r = true ∧
      o.whereExtra r = true ∧
      assocConstraint o.platformIds r.platformAssocs = true ∧
      assocConstraint o.territoryIds r.territoryAssocs = true ∧
      ∀ b, pb = some b → b ≤ r.createdAt := by
  unfold composedPredicate at h
  simp only [Bool.and_eq_true] at h
  obtain ⟨⟨⟨⟨⟨h1, h2⟩, h3⟩, h4⟩, h5⟩, h6⟩ := h
  refine ⟨h1, h2, h3, h4, h5, ?_⟩
  intro b hb
  rw [hb] at h6
  simpa using h6

/-! ### Sample data used by the witnesses -/

def wUser : User :=
  { id := 1, email := "u1@example.com" }

def wRecord : DistributionStatement :=
  { id := 1, userId := 1, teamId := none, proyecto := "Alpha",
    isrc := "ISRC-123", marketingOwner := "MO", nombreDistribucion := "Dist",
    numeroDeCatalogo := "C1", tituloCatalogo := "T1",
    tipoDeIngreso := "Ingreso", createdAt := 10000000,
    platformAssocs := [5], territoryAssocs := [7] }

def wDb : Db :=
  { users := [wUser], teams := [], statements := [wRecord] }

def wOpts : FindOptions :=
  { userId := 1 }

def wPage1 : ResultPage :=
  { data := [wRecord], count := 1, currentPage := 1, perPage := 10,
    totalPages := some 1 }

/-! ### Claims -/

/-- Claim C1: for every call to findDistribution without a teamId, the
composed tenant predicate requires both that the record's owner userId
equals the requesting userId and that the record's teamId is null, so
every returned record is personally owned and not team-owned. -/
theorem claim_C1 (db : Db) (now : Nat) (o : FindOptions) (res : ResultPage)
    (ht : o.teamId = none) (h : findDistribution db now o = .ok res) :
    (∀ r, tenantFilter db o.userId none r = true ↔
      (r.userId = o.userId ∧ r.teamId = none)) ∧
    ∀ r ∈ res.data, r.userId = o.userId ∧ r.teamId = none := by
  have hiff : ∀ r : DistributionStatement,
      tenantFilter db o.userId none r = true ↔
        (r.userId = o.userId ∧ r.teamId = none) := by
    intro r
    simp [tenantFilter]
  refine ⟨hiff, ?_⟩
  intro r hr
  obtain ⟨teamOpt, pb, hrt, hpb, hres⟩ := findDistribution_ok_elim h
  rw [ht] at hrt
  simp only [resolveTeam, Except.ok.injEq] at hrt
  subst hres
  have parts := composedPredicate_parts (pred_of_mem_data hr)
  rw [← hrt] at parts
  exact (hiff r).mp parts.2.1

theorem claim_C1_witness :
    wOpts.teamId = none ∧
    findDistribution wDb 0 wOpts = .ok wPage1 ∧
    ∀ r ∈ wPage1.data, r.userId = wOpts.userId ∧ r.teamId = none :=
  ⟨rfl, by rfl, fun r hr => (claim_C1 wDb 0 wOpts wPage1 rfl (by rfl)).2 r hr⟩

def wTeamShared : Team :=
  { id := 2, members := [1], teamEmail := some "inbox@example.com" }

def wTeamRecord : DistributionStatement :=
  { wRecord with id := 2, teamId := some 2 }

def wDbTeam : Db :=
  { users := [wUser], teams := [wTeamShared], statements := [wTeamRecord] }

/-- Claim C2: for every call to findDistribution with a teamId that
resolves to a team having a shared inbox email, the composed tenant
predicate accepts a record exactly when the record's teamId equals the
team's id or the record's owning user's email equals the team's shared
inbox email; when the resolved team has no shared inbox email, it accepts
exactly the records whose teamId equals the team's id. -/
theorem claim_C2 (db : Db) (uid tid : Nat) (t : Team)
    (ht : findTeam db tid uid = some t) (r : DistributionStatement) :
    (∀ e, t.teamEmail = some e →
      (tenantFilter db uid (some t) r = true ↔
        (r.teamId = some t.id ∨ userEmailOf db r.userId = some e))) ∧
    (t.teamEmail = none →
      (tenantFilter db uid (some t) r = true ↔ r.teamId = some t.id)) := by
  constructor
  · intro e he
    simp [tenantFilter, he]
  · intro he
    simp [tenantFilter, he]

theorem claim_C2_witness :
    findTeam wDbTeam 2 1 = some wTeamShared ∧
    wTeamShared.teamEmail = some "inbox@example.com" ∧
    (tenantFilter wDbTeam 1 (some wTeamShared) wTeamRecord = true ↔
      (wTeamRecord.teamId = some wTeamShared.id ∨
        userEmailOf wDbTeam wTeamRecord.userId = some "inbox@example.com")) :=
  ⟨by rfl, rfl,
    (claim_C2 wDbTeam 1 2 wTeamShared (by rfl) wTeamRecord).1 _ rfl⟩

def wTeamOther : Team :=
  { id := 2, members := [3], teamEmail := none }

def wDbNoMem : Db :=
  { users := [], teams := [wTeamOther], statements := [] }

def wOptsTeam : FindOptions :=
  { userId := 1, teamId := some 2 }

/-- Claim C3: for every call to findDistribution with a teamId for which
the requesting userId is not a member, the whole call fails with a
not-found/unauthorized error before any distribution-statement query or
count is issued, and no data is returned (no fallback to personal
scope). -/
theorem claim_C3 (db : Db) (now : Nat) (o : FindOptions) (tid : Nat)
    (htid : o.teamId = some tid)
    (hmem : ∀ t ∈ db.teams, t.id = tid → o.userId ∉ t.members) :
    findDistribution db now o = .error .teamNotFound := by
  have hft : findTeam db tid o.userId = none := by
    unfold findTeam
    apply List.find?_eq_none.mpr
    intro t htl hcon
    rw [Bool.and_eq_true, decide_eq_true_eq] at hcon
    obtain ⟨h1, h2⟩ := hcon
    exact hmem t htl h1 (by simpa using h2)
  have hres : resolveTeam db o.userId o.teamId = .error .teamNotFound := by
    rw [htid]
    simp only [resolveTeam]
    rw [hft]
  unfold findDistribution
  rw [hres]

theorem claim_C3_witness :
    wOptsTeam.teamId = some 2 ∧
    (∀ t ∈ wDbNoMem.teams, t.id = 2 → wOptsTeam.userId ∉ t.members) ∧
    findDistribution wDbNoMem 0 wOptsTeam = .error .teamNotFound :=
  ⟨rfl, by decide, claim_C3 wDbNoMem 0 wOptsTeam 2 rfl (by decide)⟩

def c4Old : DistributionStatement :=
  { wRecord with id := 3, createdAt := 0 }

def c4New : DistributionStatement :=
  { wRecord with id := 4, createdAt := 9999999 }

def c4Db : Db :=
  { users := [wUser], teams := [], statements := [c4Old, c4New] }

def c4Opts : FindOptions :=
  { userId := 1, period := some "99d" }

/-- Claim C4 (evaluation at the failing input): the claim says a period
string outside the enum fails validation before any storage call, but the
code performs no runtime check: `period = "99d"` is stripped to `"99"`,
parsed to a 99-day count, turned into a `createdAt` lower bound, and the
call succeeds against storage, filtering freeform by 99 days. -/
theorem claim_C4 :
    periodBound 10000000 (some "99d") = .ok (some 1382400) ∧
    findDistribution c4Db 10000000 c4Opts =
      .ok { data := [c4New], count := 1, currentPage := 1, perPage := 10,
            totalPages := some 1 } :=
  ⟨by rfl, by rfl⟩

/-- Claim C5: for every call to findDistribution, the returned count
equals the number of records satisfying the identical composed predicate
used to fetch data, independent of page and perPage, and the returned
totalPages equals ceil(count / perPage). -/
theorem claim_C5 (db : Db) (now : Nat) (o : FindOptions) (res : ResultPage)
    (hpp : 0 < o.perPage) (h : findDistribution db now o = .ok res) :
    (∃ teamOpt pb,
      resolveTeam db o.userId o.teamId = .ok teamOpt ∧
      periodBound now o.period = .ok pb ∧
      res.count =
        (db.statements.filter (composedPredicate db o teamOpt pb)).length ∧
      res.data =
        ((sortBy (orderLe (o.orderBy.getD { column := .id, direction := .asc }))
          (db.statements.filter (composedPredicate db o teamOpt pb))).drop
            ((o.page - 1) * o.perPage)).take o.perPage) ∧
    res.totalPages = some ((res.count + o.perPage - 1) / o.perPage) ∧
    ∀ p pp : Nat, ∀ res' : ResultPage,
      findDistribution db now { o with page := p, perPage := pp } = .ok res' →
      res'.count = res.count := by
  obtain ⟨teamOpt, pb, hrt, hpb, hres⟩ := findDistribution_ok_elim h
  subst hres
  refine ⟨⟨teamOpt, pb, hrt, hpb, rfl, rfl⟩, ?_, ?_⟩
  · simp only [buildPage, jsCeilDiv]
    rw [if_neg (Nat.pos_iff_ne_zero.mp hpp)]
  · intro p pp res' h'
    obtain ⟨teamOpt', pb', hrt', hpb', hres'⟩ := findDistribution_ok_elim h'
    have e1 : (Except.ok teamOpt : Except FindError (Option Team)) =
        .ok teamOpt' := hrt.symm.trans hrt'
    have e2 : (Except.ok pb : Except FindError (Option Nat)) =
        .ok pb' := hpb.symm.trans hpb'
    obtain rfl : teamOpt = teamOpt' := by
      simpa using e1
    obtain rfl : pb = pb' := by
      simpa using e2
    subst hres'
    rfl

theorem claim_C5_witness :
    0 < wOpts.perPage ∧
    findDistribution wDb 0 wOpts = .ok wPage1 ∧
    wPage1.totalPages = some ((wPage1.count + wOpts.perPage - 1) / wOpts.perPage) :=
  ⟨by decide, by rfl, (claim_C5 wDb 0 wOpts wPage1 (by decide) (by rfl)).2.1⟩

theorem charsBeginWith_iff (n h : List Char) :
    charsBeginWith n h = true ↔ ∃ post, h = n ++ post := by
  induction n generalizing h with
  | nil => simp [charsBeginWith]
  | cons a as ih =>
    cases h with
    | nil => simp [charsBeginWith, eq_comm]
    | cons b bs =>
      simp only [charsBeginWith, Bool.and_eq_true, beq_iff_eq, ih,
        List.cons_append, List.cons.injEq]
      constructor
      · rintro ⟨rfl, post, rfl⟩
        exact ⟨post, rfl, rfl⟩
      · rintro ⟨post, rfl, rfl⟩
        exact ⟨rfl, post, rfl⟩

theorem charsContain_iff (n h : List Char) :
    charsContain n h = true ↔ ∃ pre post, h = pre ++ n ++ post := by
  induction h with
  | nil =>
    cases n with
    | nil =>
      constructor
      · intro _
        exact ⟨[], [], rfl⟩
      · intro _
        rfl
    | cons a as =>
      simp only [charsContain, charsBeginWith]
      constructor
      · intro hfalse
        exact absurd hfalse (by simp)
      · rintro ⟨pre, post, hpre⟩
        exact absurd hpre.symm (by simp)
  | cons c cs ih =>
    simp only [charsContain, Bool.or_eq_true, charsBeginWith_iff, ih]
    constructor
    · rintro (⟨post, hp⟩ | ⟨pre, post, hp⟩)
      · exact ⟨[], post, by simpa using hp⟩
      · exact ⟨c :: pre, post, by simp [hp]⟩
    · rintro ⟨pre, post, hpre⟩
      cases pre with
      | nil =>
        exact Or.inl ⟨post, by simpa using hpre⟩
      | cons p ps =>
        rw [List.cons_append, List.cons_append] at hpre
        injection hpre with h1 h2
        exact Or.inr ⟨ps, post, by simpa using h2⟩

theorem strContainsCI_iff (hay needle : String) :
    strContainsCI hay needle = true ↔
      ∃ pre post,
        lowerChars hay.toList = pre ++ lowerChars needle.toList ++ post := by
  unfold strContainsCI
  exact charsContain_iff _ _

/-- Claim C6: for every call to findDistribution with a non-empty
free-text query, the search predicate accepts a record exactly when at
least one of the seven specified textual fields (project name, ISRC code,
marketing owner, distribution name, catalog number, catalog title, income
type) contains the query as a case-insensitive substring.  (The source
lists `proyecto` twice in the OR block; the duplicate is absorbed.) -/
theorem claim_C6 (q : String) (hq : q ≠ "") (r : DistributionStatement) :
    searchMatch (some q) r = true ↔
      ∃ f ∈ [r.proyecto, r.isrc, r.marketingOwner, r.nombreDistribucion,
             r.numeroDeCatalogo, r.tituloCatalogo, r.tipoDeIngreso],
        ∃ pre post,
          lowerChars f.toList = pre ++ lowerChars q.toList ++ post := by
  simp only [searchMatch, Bool.or_eq_true, strContainsCI_iff, List.mem_cons,
    List.not_mem_nil, or_false]
  aesop

theorem claim_C6_witness :
    ("isrc-123" : String) ≠ "" ∧
    searchMatch (some "isrc-123") wRecord = true ∧
    ∃ f ∈ [wRecord.proyecto, wRecord.isrc, wRecord.marketingOwner,
           wRecord.nombreDistribucion, wRecord.numeroDeCatalogo,
           wRecord.tituloCatalogo, wRecord.tipoDeIngreso],
      ∃ pre post,
        lowerChars f.toList = pre ++ lowerChars "isrc-123".toList ++ post :=
  ⟨by decide, by rfl,
    (claim_C6 "isrc-123" (by decide) wRecord).mp (by rfl)⟩

def c7Opts : FindOptions :=
  { userId := 1, platformIds := some [5], territoryIds := some [7] }

/-- Claim C7: for every call to findDistribution with a non-empty
platformIds set, every returned record has at least one platform
association whose platform foreign key is in the given set (existential
semantics); the same existential semantics holds for territoryIds over
territory associations. -/
theorem claim_C7 (db : Db) (now : Nat) (o : FindOptions) (res : ResultPage)
    (h : findDistribution db now o = .ok res) (r : DistributionStatement)
    (hr : r ∈ res.data) :
    (∀ pl, o.platformIds = some pl → pl ≠ [] →
      ∃ p ∈ r.platformAssocs, p ∈ pl) ∧
    (∀ tl, o.territoryIds = some tl → tl ≠ [] →
      ∃ t ∈ r.territoryAssocs, t ∈ tl) := by
  obtain ⟨teamOpt, pb, hrt, hpb, hres⟩ := findDistribution_ok_elim h
  subst hres
  have parts := composedPredicate_parts (pred_of_mem_data hr)
  constructor
  · intro pl hpl hne
    have h4 := parts.2.2.2.1
    rw [hpl] at h4
    simp only [assocConstraint] at h4
    rw [if_pos (List.length_pos.mpr hne)] at h4
    simpa using h4
  · intro tl htl hne
    have h5 := parts.2.2.2.2.1
    rw [htl] at h5
    simp only [assocConstraint] at h5
    rw [if_pos (List.length_pos.mpr hne)] at h5
    simpa using h5

theorem claim_C7_witness :
    findDistribution wDb 0 c7Opts = .ok wPage1 ∧
    wRecord ∈ wPage1.data ∧
    c7Opts.platformIds = some [5] ∧ ([5] : List Nat) ≠ [] ∧
    ∃ p ∈ wRecord.platformAssocs, p ∈ ([5] : List Nat) :=
  ⟨by rfl, by decide, rfl, by decide,
    (claim_C7 wDb 0 c7Opts wPage1 (by rfl) wRecord (by decide)).1 [5] rfl
      (by decide)⟩

def c8New : DistributionStatement :=
  { wRecord with id := 5, createdAt := 9999900 }

def c8Db : Db :=
  { users := [wUser], teams := [], statements := [c4Old, c8New] }

def c8Opts : FindOptions :=
  { userId := 1, period := some "7d" }

def c8Page : ResultPage :=
  { data := [c8New], count := 1, currentPage := 1, perPage := 10,
    totalPages := some 1 }

/-- Claim C8: for every call to findDistribution with period `7d`, the
composed predicate adds a creation-time lower bound so that records
created before the start of the day seven days before the call time are
excluded (boundary truncated to start-of-day, computed once per call). -/
theorem claim_C8 (db : Db) (now : Nat) (o : FindOptions) (res : ResultPage)
    (hp : o.period = some "7d") (h : findDistribution db now o = .ok res)
    (r : DistributionStatement) (hr : r ∈ res.data) :
    startOfDay (now - 7 * 86400) ≤ r.createdAt := by
  obtain ⟨teamOpt, pb, hrt, hpb, hres⟩ := findDistribution_ok_elim h
  subst hres
  rw [hp] at hpb
  have hparse : jsParseInt (stripTrailingD "7d") = some 7 := by decide
  simp only [periodBound] at hpb
  rw [if_neg (by decide), hparse] at hpb
  simp only [Except.ok.injEq] at hpb
  have parts := composedPredicate_parts (pred_of_mem_data hr)
  exact parts.2.2.2.2.2 _ hpb.symm

theorem claim_C8_witness :
    c8Opts.period = some "7d" ∧
    findDistribution c8Db 10000000 c8Opts = .ok c8Page ∧
    c8New ∈ c8Page.data ∧
    startOfDay (10000000 - 7 * 86400) ≤ c8New.createdAt :=
  ⟨rfl, by rfl, by decide,
    claim_C8 c8Db 10000000 c8Opts c8Page rfl (by rfl) c8New (by decide)⟩

def c9Opts : FindOptions :=
  { userId := 1, perPage := 0 }

def c9Page : ResultPage :=
  { data := [], count := 1, currentPage := 1, perPage := 0,
    totalPages := none }

/-- Claim C9 as stated is false: an explicitly passed perPage = 0 is not
rejected at the interface (the JavaScript default applies only to an
omitted argument) and the division count / perPage is evaluated with a
zero divisor; the call below succeeds with the non-finite quotient
(modelled `none`). -/
theorem claim_C9_counterexample :
    findDistribution wDb 0 c9Opts = .ok c9Page := by rfl

/-- Claim C9 (amended): an explicitly passed perPage = 0 bypasses the
default of 10 and reaches the division unguarded: the call is not
rejected, and the returned totalPages is the non-finite JavaScript value
of a division by zero (modelled as `none`); the data slice is empty. -/
theorem claim_C9 (db : Db) (now : Nat) (o : FindOptions) (res : ResultPage)
    (hpp : o.perPage = 0) (h : findDistribution db now o = .ok res) :
    res.totalPages = none ∧ res.data = [] := by
  obtain ⟨teamOpt, pb, hrt, hpb, hres⟩ := findDistribution_ok_elim h
  subst hres
  constructor
  · simp [buildPage, jsCeilDiv, hpp]
  · simp [buildPage, hpp]

theorem claim_C9_witness :
    c9Opts.perPage = 0 ∧
    findDistribution wDb 0 c9Opts = .ok c9Page ∧
    c9Page.totalPages = none ∧ c9Page.data = [] :=
  ⟨rfl, by rfl, claim_C9 wDb 0 c9Opts c9Page rfl (by rfl)⟩

/-- Claim C10: for every call to findDistribution where platformIds (or
territoryIds) is an empty array, the result equals the result of the same
call with that parameter absent: an empty facet id set adds no
association constraint (a no-op, not a match-nothing filter and not an
error). -/
theorem claim_C10 (db : Db) (now : Nat) (o : FindOptions) :
    findDistribution db now { o with platformIds := some [] } =
      findDistribution db now { o with platformIds := none } ∧
    findDistribution db now { o with territoryIds := some [] } =
      findDistribution db now { o with territoryIds := none } :=
  ⟨rfl, rfl⟩

end DistributionQuery

